import Mathlib

/-!
Shallow embedding of the xianfanhuang/pylearn repository.

The repository holds two near-duplicate revisions of the same single-page
tutorial app in `src/main.js` (separated in the file by a document marker),
plus a third minimal revision in `src/app.js`:

* namespace `V1` embeds the first revision of `src/main.js` (the prototype,
  lines 1-256): XP quantum 50, no achievements, unconditional XP award on a
  passing grade, user source embedded into the grading harness through
  `JSON.stringify`.
* namespace `V2` embeds the second revision of `src/main.js` (the documented
  copy, lines 257-747): XP quantum 100, an achievement catalog, XP awarded
  only when the lesson is not yet completed, user source embedded into the
  grading harness by splicing it into a triple-quoted literal.

JS numbers are modelled as `Int` (the app only ever adds integers), JS objects
used as string-keyed sets (`state.completed`) as their key list, JS arrays
(`state.unlocked_achievements`, `lesson.hints`) as `List String`, and the
in-memory `failCounts` object as a total function `String → Nat` defaulting
to 0 (mirroring `failCounts[id] || 0`).

The Python snippets the app sends to the execution engine are modelled at the
level the claims need: the observable behaviour of executing the user source
and the checker source is abstracted into records (`UserRun`, `CheckerRun`)
and the harness control flow is translated from the script text; the
engine-side value of the `_user` variable is modelled by a parser for Python
string literals applied to the exact text the gateway builds.
-/

/-- Result object produced by the grading harness and parsed by the app:
`{"passed": bool, "error": str | None, "output": str}`. -/
structure GradeResult where
  passed : Bool
  error : Option String
  output : String
deriving DecidableEq

/-- Observable behaviour of executing the user source under the harness:
`output` is the text written to the captured stdout up to the point of an
exception (all of it when no exception is raised), `error` is the exception
message when the user code raises. -/
structure UserRun where
  output : String
  error : Option String
deriving DecidableEq

/-- Observable behaviour of the lesson checker code under the harness:
`printed` is what the checker writes to the current stdout while being
executed, `error` the exception message when executing it raises, `hasCheck`
whether the resulting namespace defines `check`, `checkRaises`/`checkVal` the
behaviour of calling `check` on a given captured-output argument. -/
structure CheckerRun where
  printed : String
  error : Option String
  hasCheck : Bool
  checkRaises : String → Option String
  checkVal : String → Bool

/-- Result object produced by the trace runner `runCodeTrap` as far as the
run handler inspects it (`parsed.error` plus the rendered output). -/
structure RunResult where
  output : String
  error : Option String
deriving DecidableEq

/-- A lesson record as read from `lessons.json`; only the fields the progress
logic touches are modelled.  `xp_reward` is `Option` because the JS code
guards it with `lesson.xp_reward || 20`. -/
structure Lesson where
  id : String
  xp_reward : Option Int
  hints : List String

/-- The value of `lesson.xp_reward || 20`: absent or zero rewards fall back
to 20. -/
def rewardOf (l : Lesson) : Int :=
  match l.xp_reward with
  | none => 20
  | some v => if v = 0 then 20 else v

/-- JS property write `obj[id] = true` on an object modelled by its key list:
an existing key leaves the key list unchanged, a new key is appended. -/
def insertKey (id : String) (l : List String) : List String :=
  if l.contains id then l else l ++ [id]

/-- Increment of the in-memory fail counter:
`failCounts[id] = (failCounts[id] || 0) + 1`. -/
def bumpCount (f : String → Nat) (id : String) : String → Nat :=
  fun k => if k = id then f id + 1 else f k

/-- JS array read `hints[i]` for a possibly negative index: negative or
out-of-range indices yield `undefined`, modelled as `none`. -/
def jsIndex (l : List String) (i : Int) : Option String :=
  if i < 0 then none else l.get? i.toNat

/-- Outcome of a click on the hint button: either a hint is shown (and the
attempt counter advances) or the no-more-hints message is shown. -/
inductive HintOutcome where
  | shown (h : String)
  | noMore
deriving DecidableEq

/-- Hint-button handler, identical in both revisions of `src/main.js`:
`hintIndex = Math.min(Math.floor(attempts / 2), hints.length - 1)`, then the
hint is shown when `hints[hintIndex]` is truthy (present and not the empty
string, which advances `failCounts`), else the no-more-hints message. -/
def hintBtnClick (hints : List String) (attempts : Nat) : HintOutcome × Nat :=
  let hintIndex : Int := min (Int.fdiv (attempts : Int) 2) ((hints.length : Int) - 1)
  match jsIndex hints hintIndex with
  | some h => if h = "" then (HintOutcome.noMore, attempts) else (HintOutcome.shown h, attempts + 1)
  | none => (HintOutcome.noMore, attempts)

/-- The stored JSON blob, as far as `loadState` reads it: each field may be
absent (a field stored as JSON `null` behaves like an absent one through the
falsy-guard in `loadState` and is modelled as absent). -/
structure StoredBlob where
  xp : Option Int
  level : Option Int
  completed : Option (List String)
  unlocked_achievements : Option (List String)

namespace V1

/-- Prototype app state `{ xp: 0, level: 1, completed: {} }`. -/
structure ProgressState where
  xp : Int
  level : Int
  completed : List String
deriving DecidableEq

/-- The default state of the prototype. -/
def initState : ProgressState := { xp := 0, level := 1, completed := [] }

/-- Prototype `addXP`: `state.xp += n; state.level = Math.floor(state.xp / 50) + 1`
(quantum 50, no achievements). -/
def addXP (s : ProgressState) (n : Int) : ProgressState :=
  let s1 : ProgressState := { s with xp := s.xp + n }
  { s1 with level := Int.fdiv s1.xp 50 + 1 }

/-- Prototype session state: persisted progress plus the in-memory fail
counters. -/
structure SessionState where
  progress : ProgressState
  failCounts : String → Nat

/-- Prototype grading harness semantics (the script built in
`testBtn.onclick`, first revision): run the user code; on an exception report
it at once; otherwise restore stdout, execute the checker in a fresh
namespace and take `ns.get("check")(sout.getvalue()) if "check" in ns else
False` as the verdict, with any checker exception reported the same way.
Note that when `check` is absent the verdict is simply `False` with
`error = None`. -/
def grade (u : UserRun) (c : CheckerRun) : GradeResult :=
  match u.error with
  | some e => { passed := false, error := some e, output := u.output }
  | none =>
    match c.error with
    | some e => { passed := false, error := some e, output := u.output }
    | none =>
      if c.hasCheck then
        match c.checkRaises u.output with
        | some e => { passed := false, error := some e, output := u.output }
        | none => { passed := c.checkVal u.output, error := none, output := u.output }
      else
        { passed := false, error := none, output := u.output }

/-- Prototype test-button state update on a parsed grading result: on a pass,
`addXP(lesson.xp_reward || 20)` is called unconditionally and the lesson is
marked completed; on a fail, the fail counter of the lesson advances by one. -/
def handleTest (lesson : Lesson) (r : GradeResult) (st : SessionState) : SessionState :=
  if r.passed then
    let p := addXP st.progress (rewardOf lesson)
    { st with progress := { p with completed := insertKey lesson.id p.completed } }
  else
    { st with failCounts := bumpCount st.failCounts lesson.id }

/-- Prototype run-button state update: `addXP(5)` is called after rendering,
whatever the parsed result holds. -/
def handleRun (_parsed : RunResult) (st : SessionState) : SessionState :=
  { st with progress := addXP st.progress 5 }

end V1

namespace V2

/-- Documented-revision app state
`{ xp: 0, level: 1, completed: {}, unlocked_achievements: [] }`. -/
structure ProgressState where
  xp : Int
  level : Int
  completed : List String
  unlocked_achievements : List String
deriving DecidableEq

/-- The default state of the documented revision. -/
def initState : ProgressState :=
  { xp := 0, level := 1, completed := [], unlocked_achievements := [] }

/-- An achievement catalog entry: id plus the predicate over the state (the
display fields carry no logic and are not modelled). -/
structure Ach where
  id : String
  condition : ProgressState → Bool

/-- The static achievement catalog of the documented revision. -/
def achievements : List Ach :=
  [ { id := "first_step", condition := fun s => decide (1 ≤ s.completed.length) },
    { id := "apprentice", condition := fun s => decide (5 ≤ s.completed.length) },
    { id := "journey", condition := fun s => decide (10 ≤ s.completed.length) },
    { id := "level_up", condition := fun s => decide (2 ≤ s.level) },
    { id := "level_master", condition := fun s => decide (5 ≤ s.level) },
    { id := "explorer", condition := fun s => decide (100 ≤ s.xp) } ]

/-- One iteration of the loop in `checkAndAwardAchievements`: an achievement
not yet unlocked whose condition holds on the current state is pushed onto
`unlocked_achievements` (and recorded as newly awarded). -/
def awardStep (p : ProgressState × List String) (a : Ach) : ProgressState × List String :=
  if !p.1.unlocked_achievements.contains a.id && a.condition p.1 then
    ({ p.1 with unlocked_achievements := p.1.unlocked_achievements ++ [a.id] }, p.2 ++ [a.id])
  else p

/-- `checkAndAwardAchievements`: fold the catalog over the state, returning
the updated state together with the list of newly awarded achievement ids. -/
def checkAndAwardAchievements (s : ProgressState) : ProgressState × List String :=
  achievements.foldl awardStep (s, [])

/-- Documented-revision `addXP`:
`state.xp += n; state.level = Math.floor(state.xp / 100) + 1;
checkAndAwardAchievements()` (quantum 100). -/
def addXP (s : ProgressState) (n : Int) : ProgressState :=
  let s1 : ProgressState := { s with xp := s.xp + n }
  let s2 : ProgressState := { s1 with level := Int.fdiv s1.xp 100 + 1 }
  (checkAndAwardAchievements s2).1

/-- Documented-revision session state: persisted progress plus the in-memory
fail counters. -/
structure SessionState where
  progress : ProgressState
  failCounts : String → Nat

/-- The diagnostic string the documented harness reports when the checker
namespace defines no `check` function. -/
def noCheckMsg : String := "No \x27check\x27 function found in test code."

/-- Documented grading harness semantics (the script built in
`testBtn.onclick`, second revision): run the user code, then the checker in
its own namespace (stdout still captured, so checker prints land in `sout`);
when `check` exists its verdict on the user output decides the grade, when it
does not the specific no-entry-point diagnostic is reported; any exception in
the whole block is reported with the stdout captured so far. -/
def grade (u : UserRun) (c : CheckerRun) : GradeResult :=
  match u.error with
  | some e => { passed := false, error := some e, output := u.output }
  | none =>
    match c.error with
    | some e => { passed := false, error := some e, output := u.output ++ c.printed }
    | none =>
      if c.hasCheck then
        match c.checkRaises u.output with
        | some e => { passed := false, error := some e, output := u.output ++ c.printed }
        | none => { passed := c.checkVal u.output, error := none, output := u.output }
      else
        { passed := false, error := some noCheckMsg, output := u.output }

/-- Documented test-button state update on a parsed grading result: on a pass
the XP reward is added and the lesson marked completed only when the lesson is
not already completed, then `checkAndAwardAchievements` runs again; on a fail
the fail counter of the lesson advances by one. -/
def handleTest (lesson : Lesson) (r : GradeResult) (st : SessionState) : SessionState :=
  if r.passed then
    let p :=
      if st.progress.completed.contains lesson.id then st.progress
      else
        let p1 := addXP st.progress (rewardOf lesson)
        { p1 with completed := insertKey lesson.id p1.completed }
    { st with progress := (checkAndAwardAchievements p).1 }
  else
    { st with failCounts := bumpCount st.failCounts lesson.id }

/-- Documented run-button state update: `addXP(5)` is called after rendering,
whatever the parsed result holds. -/
def handleRun (_parsed : RunResult) (st : SessionState) : SessionState :=
  { st with progress := addXP st.progress 5 }

/-- Step-button completion: when the playback timer exhausts the trace,
`addXP(10)` is awarded. -/
def handleStep (st : SessionState) : SessionState :=
  { st with progress := addXP st.progress 10 }

/-- Documented `loadState`: parse the stored blob (`none` models a blob
`JSON.parse` rejects, in which case the state keeps its defaults), merge it
over the defaults, then apply the falsy-guards
`if (!state.xp) state.xp = 0` etc. -/
def loadState (blob : Option StoredBlob) : ProgressState :=
  match blob with
  | none => initState
  | some b =>
    let xp0 := b.xp.getD initState.xp
    let level0 := b.level.getD initState.level
    { xp := if xp0 = 0 then 0 else xp0,
      level := if level0 = 0 then 1 else level0,
      completed := b.completed.getD [],
      unlocked_achievements := b.unlocked_achievements.getD [] }

/-- Documented `saveState`: `JSON.stringify(state)` stores every field. -/
def saveState (s : ProgressState) : StoredBlob :=
  { xp := some s.xp, level := some s.level,
    completed := some s.completed,
    unlocked_achievements := some s.unlocked_achievements }

end V2

/-- Prototype `loadState` (same merge-and-guard shape, without the
achievement field). -/
def V1.loadState (blob : Option StoredBlob) : V1.ProgressState :=
  match blob with
  | none => V1.initState
  | some b =>
    let xp0 := b.xp.getD V1.initState.xp
    let level0 := b.level.getD V1.initState.level
    { xp := if xp0 = 0 then 0 else xp0,
      level := if level0 = 0 then 1 else level0,
      completed := b.completed.getD [] }

/-! ### Engine-side value of the embedded user source

The gateway builds the grading script as a JS template string.  The first
revision embeds the user source with `JSON.stringify(userSrc)`; the second
revision splices it into a triple-quoted literal:
`_user = """` + userSrc + `"""`.  What `_user` holds on the engine side is
the value of that Python string literal, modelled by a parser over the
literal text.  The escape handling models the escapes `JSON.stringify` can
emit (quote, backslash, the short letter escapes and `\u00XX`) plus the
common Python letter escapes; unrecognized escapes keep the backslash, as in
Python. -/

/-- Lowercase hex digit character for a value below 16. -/
def hexDigit (n : Nat) : Char :=
  if n < 10 then Char.ofNat (48 + n) else Char.ofNat (87 + n)

/-- Numeric value of a hex digit character (0 for non-digits). -/
def hexVal (c : Char) : Nat :=
  if 48 ≤ c.toNat ∧ c.toNat ≤ 57 then c.toNat - 48
  else if 97 ≤ c.toNat ∧ c.toNat ≤ 102 then c.toNat - 87
  else if 65 ≤ c.toNat ∧ c.toNat ≤ 70 then c.toNat - 55
  else 0

/-- Escaping of one character by `JSON.stringify`: quote and backslash are
backslash-escaped, the control characters with short escapes use them, the
remaining control characters become `\u00XX`, every other character stands
for itself. -/
def jsonEscapeChar (c : Char) : List Char :=
  if c = '"' then ['\\', '"']
  else if c = '\\' then ['\\', '\\']
  else if c = '\n' then ['\\', 'n']
  else if c = '\r' then ['\\', 'r']
  else if c = '\t' then ['\\', 't']
  else if c.toNat = 8 then ['\\', 'b']
  else if c.toNat = 12 then ['\\', 'f']
  else if c.toNat < 32 then ['\\', 'u', '0', '0', hexDigit (c.toNat / 16), hexDigit (c.toNat % 16)]
  else [c]

/-- `JSON.stringify` of a string: a double-quoted literal around the escaped
characters. -/
def jsonStringifyChars (s : List Char) : List Char :=
  '"' :: s.flatMap jsonEscapeChar ++ ['"']

/-- Decoding of a single-letter Python escape sequence; unrecognized escapes
keep the backslash. -/
def pyEscChar (e : Char) : List Char :=
  if e = 'n' then ['\n']
  else if e = 'r' then ['\r']
  else if e = 't' then ['\t']
  else if e = 'b' then [Char.ofNat 8]
  else if e = 'f' then [Char.ofNat 12]
  else if e = 'a' then [Char.ofNat 7]
  else if e = 'v' then [Char.ofNat 11]
  else if e = '"' then ['"']
  else if e = '\\' then ['\\']
  else if e = '\'' then ['\'']
  else ['\\', e]

/-- Python scan of the body of a double-quoted (single-line) string literal:
returns the decoded value and the text after the closing quote; `none` for an
unterminated literal or a raw newline inside it. -/
def pyParseDQ : List Char → Option (List Char × List Char)
  | [] => none
  | c :: rest =>
    if c = '"' then some ([], rest)
    else if c = '\n' then none
    else if c = '\\' then
      match rest with
      | [] => none
      | e :: rest1 =>
        if e = 'u' then
          match rest1 with
          | h1 :: h2 :: h3 :: h4 :: rest2 =>
            (pyParseDQ rest2).map fun p =>
              (Char.ofNat (hexVal h1 * 4096 + hexVal h2 * 256 + hexVal h3 * 16 + hexVal h4) :: p.1, p.2)
          | _ => none
        else
          (pyParseDQ rest1).map fun p => (pyEscChar e ++ p.1, p.2)
    else
      (pyParseDQ rest).map fun p => (c :: p.1, p.2)

/-- Python scan of the body of a triple-quoted string literal: the body ends
at the first unescaped `"""`; lone quotes and raw newlines are content. -/
def pyParseTDQ : List Char → Option (List Char × List Char)
  | [] => none
  | c :: rest =>
    if c = '"' then
      match rest with
      | c2 :: c3 :: rest2 =>
        if c2 = '"' && c3 = '"' then some ([], rest2)
        else (pyParseTDQ rest).map fun p => (c :: p.1, p.2)
      | _ => (pyParseTDQ rest).map fun p => (c :: p.1, p.2)
    else if c = '\\' then
      match rest with
      | [] => none
      | e :: rest1 =>
        if e = 'u' then
          match rest1 with
          | h1 :: h2 :: h3 :: h4 :: rest2 =>
            (pyParseTDQ rest2).map fun p =>
              (Char.ofNat (hexVal h1 * 4096 + hexVal h2 * 256 + hexVal h3 * 16 + hexVal h4) :: p.1, p.2)
          | _ => none
        else (pyParseTDQ rest1).map fun p => (pyEscChar e ++ p.1, p.2)
    else (pyParseTDQ rest).map fun p => (c :: p.1, p.2)

/-- Value of a complete Python double- or triple-quoted string literal;
`none` when the text is not exactly one literal (as for a spliced source that
terminates the literal early, which in the harness is a script error). -/
def pyEvalStringLit (l : List Char) : Option (List Char) :=
  if l.take 3 = ['"', '"', '"'] then
    match pyParseTDQ (l.drop 3) with
    | some (v, []) => some v
    | _ => none
  else if l.take 1 = ['"'] then
    match pyParseDQ (l.drop 1) with
    | some (v, []) => some v
    | _ => none
  else none

/-- First-revision literal for `_user`: `JSON.stringify(userSrc)`. -/
def V1.userLiteral (src : List Char) : List Char := jsonStringifyChars src

/-- Engine-side value of `_user` in the first-revision harness. -/
def V1.userValue (src : List Char) : Option (List Char) :=
  pyEvalStringLit (V1.userLiteral src)

/-- Second-revision literal for `_user`: the source spliced between two
`"""` sequences. -/
def V2.userLiteral (src : List Char) : List Char :=
  '"' :: '"' :: '"' :: (src ++ ['"', '"', '"'])

/-- Engine-side value of `_user` in the second-revision harness. -/
def V2.userValue (src : List Char) : Option (List Char) :=
  pyEvalStringLit (V2.userLiteral src)

/-- A legitimate user program that contains the triple-quote sequence. -/
def tripleQuoteSrc : List Char := "print(\"\"\"hi\"\"\")".toList

/-- An achievement predicate that reads only the xp, level and completed
fields of the state (every catalog predicate does: none inspects
`unlocked_achievements`). -/
def V2.condOnBase (a : V2.Ach) : Prop :=
  ∀ s t : V2.ProgressState,
    s.xp = t.xp → s.level = t.level → s.completed = t.completed →
      a.condition s = a.condition t

/-- Set-growth relation between two states of the documented revision: the
completed set and the unlocked-achievement set of the second extend those of
the first. -/
def V2.growsTo (s t : V2.ProgressState) : Prop :=
  (∃ e, t.completed = s.completed ++ e) ∧
    (∃ e, t.unlocked_achievements = s.unlocked_achievements ++ e)

/-! ### Lemmas about the achievement loop -/

theorem checkAward_eq_foldl (s : V2.ProgressState) :
    V2.checkAndAwardAchievements s = V2.achievements.foldl V2.awardStep (s, []) := rfl

attribute [irreducible] V2.checkAndAwardAchievements

theorem awardStep_base (p : V2.ProgressState × List String) (a : V2.Ach) :
    (V2.awardStep p a).1.xp = p.1.xp ∧ (V2.awardStep p a).1.level = p.1.level ∧
      (V2.awardStep p a).1.completed = p.1.completed := by
  unfold V2.awardStep
  split <;> simp

theorem foldl_awardStep_base (l : List V2.Ach) (p : V2.ProgressState × List String) :
    (l.foldl V2.awardStep p).1.xp = p.1.xp ∧ (l.foldl V2.awardStep p).1.level = p.1.level ∧
      (l.foldl V2.awardStep p).1.completed = p.1.completed := by
  induction l generalizing p with
  | nil => exact ⟨rfl, rfl, rfl⟩
  | cons a l ih =>
    obtain ⟨h1, h2, h3⟩ := ih (V2.awardStep p a)
    obtain ⟨g1, g2, g3⟩ := awardStep_base p a
    refine ⟨?_, ?_, ?_⟩
    · rw [List.foldl_cons, h1, g1]
    · rw [List.foldl_cons, h2, g2]
    · rw [List.foldl_cons, h3, g3]

theorem awardStep_unlocked (p : V2.ProgressState × List String) (a : V2.Ach) :
    ∃ e, (V2.awardStep p a).1.unlocked_achievements = p.1.unlocked_achievements ++ e := by
  unfold V2.awardStep
  split
  · exact ⟨[a.id], rfl⟩
  · exact ⟨[], (List.append_nil _).symm⟩

theorem foldl_awardStep_unlocked (l : List V2.Ach) (p : V2.ProgressState × List String) :
    ∃ e, (l.foldl V2.awardStep p).1.unlocked_achievements = p.1.unlocked_achievements ++ e := by
  induction l generalizing p with
  | nil => exact ⟨[], (List.append_nil _).symm⟩
  | cons a l ih =>
    obtain ⟨e1, he1⟩ := awardStep_unlocked p a
    obtain ⟨e2, he2⟩ := ih (V2.awardStep p a)
    exact ⟨e1 ++ e2, by rw [List.foldl_cons, he2, he1, List.append_assoc]⟩

theorem foldl_awardStep_mem (l : List V2.Ach) (p : V2.ProgressState × List String)
    (x : String) (h : x ∈ p.1.unlocked_achievements) :
    x ∈ (l.foldl V2.awardStep p).1.unlocked_achievements := by
  obtain ⟨e, he⟩ := foldl_awardStep_unlocked l p
  rw [he]
  exact List.mem_append_left e h

theorem foldl_awardStep_settled : ∀ (l : List V2.Ach) (p : V2.ProgressState × List String),
    (∀ a ∈ l, V2.condOnBase a) →
    ∀ a ∈ l, a.id ∈ (l.foldl V2.awardStep p).1.unlocked_achievements ∨
      a.condition (l.foldl V2.awardStep p).1 = false := by
  intro l
  induction l with
  | nil => intro p _ a ha; exact absurd ha (List.not_mem_nil a)
  | cons a0 l ih =>
    intro p hco a ha
    rw [List.mem_cons] at ha
    rcases ha with rfl | ha
    · by_cases hc : (!p.1.unlocked_achievements.contains a.id && a.condition p.1) = true
      · left
        rw [List.foldl_cons]
        apply foldl_awardStep_mem
        unfold V2.awardStep
        rw [if_pos hc]
        simp
      · have hstep : V2.awardStep p a = p := by
          unfold V2.awardStep
          rw [if_neg hc]
        have hdis : p.1.unlocked_achievements.contains a.id = true ∨ a.condition p.1 = false := by
          by_cases h1 : p.1.unlocked_achievements.contains a.id = true
          · exact Or.inl h1
          · have h1f := Bool.eq_false_iff.mpr h1
            by_cases h2 : a.condition p.1 = true
            · exact absurd (by rw [h1f, h2]; rfl) hc
            · exact Or.inr (Bool.eq_false_iff.mpr h2)
        rw [List.foldl_cons, hstep]
        rcases hdis with h1 | h1
        · left
          apply foldl_awardStep_mem
          simp only [List.contains, List.elem_iff] at h1
          exact h1
        · right
          obtain ⟨b1, b2, b3⟩ := foldl_awardStep_base l p
          rw [hco a (List.mem_cons_self a l) (l.foldl V2.awardStep p).1 p.1 b1 b2 b3]
          exact h1
    · rw [List.foldl_cons]
      exact ih (V2.awardStep p a0) (fun b hb => hco b (List.mem_cons_of_mem a0 hb)) a ha

theorem foldl_awardStep_noop : ∀ (l : List V2.Ach) (p : V2.ProgressState × List String),
    (∀ a ∈ l, a.id ∈ p.1.unlocked_achievements ∨ a.condition p.1 = false) →
    l.foldl V2.awardStep p = p := by
  intro l
  induction l with
  | nil => intro p _; rfl
  | cons a0 l ih =>
    intro p h
    have h0 := h a0 (List.mem_cons_self a0 l)
    have hstep : V2.awardStep p a0 = p := by
      unfold V2.awardStep
      rcases h0 with h0 | h0
      · have hc : p.1.unlocked_achievements.contains a0.id = true := by
          simp only [List.contains, List.elem_iff]
          exact h0
        rw [if_neg (by rw [hc]; simp)]
      · rw [if_neg (by rw [h0]; simp)]
    rw [List.foldl_cons, hstep]
    exact ih p (fun b hb => h b (List.mem_cons_of_mem a0 hb))

theorem achievements_condOnBase : ∀ a ∈ V2.achievements, V2.condOnBase a := by
  intro a ha
  fin_cases ha <;> (intro s t h1 h2 h3; simp [h1, h2, h3])

theorem checkAward_base (s : V2.ProgressState) :
    (V2.checkAndAwardAchievements s).1.xp = s.xp ∧
      (V2.checkAndAwardAchievements s).1.level = s.level ∧
      (V2.checkAndAwardAchievements s).1.completed = s.completed := by
  rw [checkAward_eq_foldl s]
  exact foldl_awardStep_base V2.achievements (s, [])

theorem addXP_base (s : V2.ProgressState) (n : Int) :
    (V2.addXP s n).xp = s.xp + n ∧
      (V2.addXP s n).level = Int.fdiv (s.xp + n) 100 + 1 ∧
      (V2.addXP s n).completed = s.completed := by
  obtain ⟨h1, h2, h3⟩ :=
    checkAward_base { s with xp := s.xp + n, level := Int.fdiv (s.xp + n) 100 + 1 }
  exact ⟨h1, h2, h3⟩

theorem addXP_level_eq (s : V2.ProgressState) (n : Int) :
    (V2.addXP s n).level = Int.fdiv (V2.addXP s n).xp 100 + 1 := by
  obtain ⟨h1, h2, _⟩ := addXP_base s n
  rw [h1, h2]

theorem proto_addXP_level_eq (s : V1.ProgressState) (n : Int) :
    (V1.addXP s n).level = Int.fdiv (V1.addXP s n).xp 50 + 1 := rfl

theorem foldl_addXP_inv (l : List Nat) :
    ∀ s : V2.ProgressState, s.level = Int.fdiv s.xp 100 + 1 →
    (l.foldl (fun (t : V2.ProgressState) (n : Nat) => V2.addXP t (Int.ofNat n)) s).level =
      Int.fdiv (l.foldl (fun (t : V2.ProgressState) (n : Nat) => V2.addXP t (Int.ofNat n)) s).xp 100 + 1 := by
  induction l with
  | nil => intro s hs; exact hs
  | cons n l ih =>
    intro s _
    rw [List.foldl_cons]
    exact ih (V2.addXP s (Int.ofNat n)) (addXP_level_eq s (Int.ofNat n))

theorem proto_foldl_addXP_inv (l : List Nat) :
    ∀ s : V1.ProgressState, s.level = Int.fdiv s.xp 50 + 1 →
    (l.foldl (fun (t : V1.ProgressState) (n : Nat) => V1.addXP t (Int.ofNat n)) s).level =
      Int.fdiv (l.foldl (fun (t : V1.ProgressState) (n : Nat) => V1.addXP t (Int.ofNat n)) s).xp 50 + 1 := by
  induction l with
  | nil => intro s hs; exact hs
  | cons n l ih =>
    intro s _
    rw [List.foldl_cons]
    exact ih (V1.addXP s (Int.ofNat n)) (proto_addXP_level_eq s (Int.ofNat n))

theorem growsTo_refl (s : V2.ProgressState) : V2.growsTo s s :=
  ⟨⟨[], (List.append_nil _).symm⟩, ⟨[], (List.append_nil _).symm⟩⟩

theorem growsTo_trans {a b c : V2.ProgressState}
    (h1 : V2.growsTo a b) (h2 : V2.growsTo b c) : V2.growsTo a c := by
  obtain ⟨⟨e1, he1⟩, ⟨f1, hf1⟩⟩ := h1
  obtain ⟨⟨e2, he2⟩, ⟨f2, hf2⟩⟩ := h2
  exact ⟨⟨e1 ++ e2, by rw [he2, he1, List.append_assoc]⟩,
    ⟨f1 ++ f2, by rw [hf2, hf1, List.append_assoc]⟩⟩

theorem insertKey_ext (id : String) (l : List String) : ∃ e, insertKey id l = l ++ e := by
  unfold insertKey
  split
  · exact ⟨[], (List.append_nil _).symm⟩
  · exact ⟨[id], rfl⟩

theorem insertKey_mem (id : String) (l : List String) : id ∈ insertKey id l := by
  unfold insertKey
  split
  · next h => simpa [List.contains, List.elem_iff] using h
  · exact List.mem_append_right l (List.mem_singleton.mpr rfl)

theorem addXP_unlocked (s : V2.ProgressState) (n : Int) :
    ∃ e, (V2.addXP s n).unlocked_achievements = s.unlocked_achievements ++ e := by
  show ∃ e, (V2.checkAndAwardAchievements
    { s with xp := s.xp + n, level := Int.fdiv (s.xp + n) 100 + 1 }).1.unlocked_achievements =
      s.unlocked_achievements ++ e
  rw [checkAward_eq_foldl]
  exact foldl_awardStep_unlocked V2.achievements
    ({ s with xp := s.xp + n, level := Int.fdiv (s.xp + n) 100 + 1 }, [])

theorem checkAward_growsTo (s : V2.ProgressState) :
    V2.growsTo s (V2.checkAndAwardAchievements s).1 := by
  refine ⟨⟨[], ?_⟩, ?_⟩
  · rw [(checkAward_base s).2.2, List.append_nil]
  · rw [checkAward_eq_foldl s]
    exact foldl_awardStep_unlocked V2.achievements (s, [])

theorem addXP_growsTo (s : V2.ProgressState) (n : Int) : V2.growsTo s (V2.addXP s n) := by
  refine ⟨⟨[], ?_⟩, addXP_unlocked s n⟩
  rw [(addXP_base s n).2.2, List.append_nil]

theorem handleTest_pass_eq (lesson : Lesson) (r : GradeResult) (st : V2.SessionState)
    (hr : r.passed = true) :
    V2.handleTest lesson r st =
      { st with progress := (V2.checkAndAwardAchievements
        (if st.progress.completed.contains lesson.id then st.progress
         else
          { V2.addXP st.progress (rewardOf lesson) with
            completed := insertKey lesson.id (V2.addXP st.progress (rewardOf lesson)).completed })).1 } := by
  unfold V2.handleTest
  rw [if_pos hr]

theorem handleTest_fail_eq (lesson : Lesson) (r : GradeResult) (st : V2.SessionState)
    (hr : r.passed = false) :
    V2.handleTest lesson r st = { st with failCounts := bumpCount st.failCounts lesson.id } := by
  unfold V2.handleTest
  rw [if_neg (by simp [hr])]

theorem markPass_growsTo (lesson : Lesson) (s : V2.ProgressState) :
    V2.growsTo s
      { V2.addXP s (rewardOf lesson) with
        completed := insertKey lesson.id (V2.addXP s (rewardOf lesson)).completed } := by
  obtain ⟨e, he⟩ := insertKey_ext lesson.id (V2.addXP s (rewardOf lesson)).completed
  obtain ⟨e2, he2⟩ := addXP_unlocked s (rewardOf lesson)
  refine ⟨⟨e, ?_⟩, ⟨e2, he2⟩⟩
  rw [he, (addXP_base s (rewardOf lesson)).2.2]

theorem handleTest_growsTo (lesson : Lesson) (r : GradeResult) (st : V2.SessionState) :
    V2.growsTo st.progress (V2.handleTest lesson r st).progress := by
  cases hr : r.passed with
  | false => rw [handleTest_fail_eq lesson r st hr]; exact growsTo_refl st.progress
  | true =>
    rw [handleTest_pass_eq lesson r st hr]
    by_cases hc : st.progress.completed.contains lesson.id = true
    · rw [if_pos hc]
      exact checkAward_growsTo st.progress
    · rw [if_neg hc]
      exact growsTo_trans (markPass_growsTo lesson st.progress)
        (checkAward_growsTo { V2.addXP st.progress (rewardOf lesson) with
          completed := insertKey lesson.id (V2.addXP st.progress (rewardOf lesson)).completed })

theorem handleTest_pass_mem (lesson : Lesson) (r : GradeResult) (st : V2.SessionState)
    (hr : r.passed = true) :
    lesson.id ∈ (V2.handleTest lesson r st).progress.completed := by
  rw [handleTest_pass_eq lesson r st hr]
  by_cases hc : st.progress.completed.contains lesson.id = true
  · rw [if_pos hc]
    show lesson.id ∈ (V2.checkAndAwardAchievements st.progress).1.completed
    rw [(checkAward_base st.progress).2.2]
    simpa [List.contains, List.elem_iff] using hc
  · rw [if_neg hc]
    show lesson.id ∈ (V2.checkAndAwardAchievements
      { V2.addXP st.progress (rewardOf lesson) with
        completed := insertKey lesson.id (V2.addXP st.progress (rewardOf lesson)).completed }).1.completed
    rw [(checkAward_base
      { V2.addXP st.progress (rewardOf lesson) with
        completed := insertKey lesson.id (V2.addXP st.progress (rewardOf lesson)).completed }).2.2]
    exact insertKey_mem lesson.id (V2.addXP st.progress (rewardOf lesson)).completed

/-! ### Claim theorems -/

/-- C6: achievement evaluation is idempotent. -/
theorem checkAndAwardAchievements_idempotent (s : V2.ProgressState) :
    (V2.checkAndAwardAchievements (V2.checkAndAwardAchievements s).1).2 = [] := by
  have hset := foldl_awardStep_settled V2.achievements (s, []) achievements_condOnBase
  have hno := foldl_awardStep_noop V2.achievements ((V2.checkAndAwardAchievements s).1, [])
    (by intro a ha; rw [checkAward_eq_foldl s]; exact hset a ha)
  rw [checkAward_eq_foldl ((V2.checkAndAwardAchievements s).1), hno]

/-- C2 (amended). -/
theorem pass_awards_xp_once :
    (∀ (lesson : Lesson) (r : GradeResult) (st : V2.SessionState),
      r.passed = true → st.progress.completed.contains lesson.id = true →
      (V2.handleTest lesson r st).progress.xp = st.progress.xp) ∧
    (∀ (lesson : Lesson) (r r2 : GradeResult) (st : V2.SessionState),
      r.passed = true → r2.passed = true →
      (V2.handleTest lesson r2 (V2.handleTest lesson r st)).progress.xp =
        (V2.handleTest lesson r st).progress.xp) := by
  have key : ∀ (lesson : Lesson) (r : GradeResult) (st : V2.SessionState),
      r.passed = true → st.progress.completed.contains lesson.id = true →
      (V2.handleTest lesson r st).progress.xp = st.progress.xp := by
    intro lesson r st hr hc
    rw [handleTest_pass_eq lesson r st hr, if_pos hc]
    exact (checkAward_base st.progress).1
  refine ⟨key, ?_⟩
  intro lesson r r2 st hr hr2
  apply key lesson r2 (V2.handleTest lesson r st) hr2
  simp only [List.contains, List.elem_iff]
  exact handleTest_pass_mem lesson r st hr

/-- C8. -/
theorem completed_unlocked_monotone :
    (∀ (s : V2.ProgressState) (n : Int), V2.growsTo s (V2.addXP s n)) ∧
    (∀ s : V2.ProgressState, V2.growsTo s (V2.checkAndAwardAchievements s).1) ∧
    (∀ (parsed : RunResult) (st : V2.SessionState),
      V2.growsTo st.progress (V2.handleRun parsed st).progress) ∧
    (∀ st : V2.SessionState, V2.growsTo st.progress (V2.handleStep st).progress) ∧
    (∀ (lesson : Lesson) (r : GradeResult) (st : V2.SessionState),
      V2.growsTo st.progress (V2.handleTest lesson r st).progress) :=
  ⟨addXP_growsTo, checkAward_growsTo,
    fun _ st => addXP_growsTo st.progress 5,
    fun st => addXP_growsTo st.progress 10,
    handleTest_growsTo⟩

/-- C1 counterexample. -/
theorem addXP_prototype_quantum_counterexample :
    (V1.addXP V1.initState 60).level = 2 ∧
      Int.fdiv (V1.addXP V1.initState 60).xp 100 + 1 = 1 := by decide

/-- C1 (amended). -/
theorem addXP_level_quantum_invariant :
    (∀ l : List Nat,
      (l.foldl (fun (t : V2.ProgressState) (n : Nat) => V2.addXP t (Int.ofNat n)) V2.initState).level =
        Int.fdiv (l.foldl (fun (t : V2.ProgressState) (n : Nat) => V2.addXP t (Int.ofNat n)) V2.initState).xp 100 + 1) ∧
    (∀ l : List Nat,
      (l.foldl (fun (t : V1.ProgressState) (n : Nat) => V1.addXP t (Int.ofNat n)) V1.initState).level =
        Int.fdiv (l.foldl (fun (t : V1.ProgressState) (n : Nat) => V1.addXP t (Int.ofNat n)) V1.initState).xp 50 + 1) ∧
    (V2.addXP V2.initState 60).xp = 60 ∧ (V2.addXP V2.initState 60).level = 1 ∧
    (V2.addXP (V2.addXP V2.initState 60) 45).xp = 105 ∧
    (V2.addXP (V2.addXP V2.initState 60) 45).level = 2 := by
  refine ⟨?_, ?_, ?_, ?_, ?_, ?_⟩
  · intro l
    exact foldl_addXP_inv l V2.initState (by decide)
  · intro l
    exact proto_foldl_addXP_inv l V1.initState (by decide)
  · rw [(addXP_base V2.initState 60).1]; decide
  · rw [(addXP_base V2.initState 60).2.1]; decide
  · rw [(addXP_base (V2.addXP V2.initState 60) 45).1, (addXP_base V2.initState 60).1]; decide
  · rw [(addXP_base (V2.addXP V2.initState 60) 45).2.1, (addXP_base V2.initState 60).1]; decide

/-- C2 counterexample. -/
theorem prototype_pass_awards_twice_counterexample :
    ((V1.handleTest ⟨"l1", some 20, []⟩ ⟨true, none, ""⟩
        (V1.handleTest ⟨"l1", some 20, []⟩ ⟨true, none, ""⟩
          ⟨V1.initState, fun _ => 0⟩)).progress.xp = 40) ∧
    ((V1.handleTest ⟨"l1", some 20, []⟩ ⟨true, none, ""⟩
        ⟨V1.initState, fun _ => 0⟩).progress.xp = 20) := by decide

/-- C2 witness. -/
theorem pass_awards_xp_once_witness :
    (V2.handleTest ⟨"l1", some 20, []⟩ ⟨true, none, ""⟩
        ⟨⟨0, 1, ["l1"], []⟩, fun _ => 0⟩).progress.xp = (0 : Int) ∧
    (V2.handleTest ⟨"l1", some 20, []⟩ ⟨true, none, ""⟩
        (V2.handleTest ⟨"l1", some 20, []⟩ ⟨true, none, ""⟩
          ⟨V2.initState, fun _ => 0⟩)).progress.xp =
      (V2.handleTest ⟨"l1", some 20, []⟩ ⟨true, none, ""⟩
        ⟨V2.initState, fun _ => 0⟩).progress.xp :=
  ⟨pass_awards_xp_once.1 ⟨"l1", some 20, []⟩ ⟨true, none, ""⟩
      ⟨⟨0, 1, ["l1"], []⟩, fun _ => 0⟩ rfl (by decide),
    pass_awards_xp_once.2 ⟨"l1", some 20, []⟩ ⟨true, none, ""⟩ ⟨true, none, ""⟩
      ⟨V2.initState, fun _ => 0⟩ rfl rfl⟩

/-- C10: every invocation of the run action adds exactly 5 XP and never
touches the completed set, whatever the parsed execution result holds
(including results carrying an error), in both revisions. -/
theorem runAction_adds_five_xp :
    (∀ (parsed : RunResult) (st : V2.SessionState),
      (V2.handleRun parsed st).progress.xp = st.progress.xp + 5 ∧
      (V2.handleRun parsed st).progress.completed = st.progress.completed) ∧
    (∀ (parsed : RunResult) (st : V1.SessionState),
      (V1.handleRun parsed st).progress.xp = st.progress.xp + 5 ∧
      (V1.handleRun parsed st).progress.completed = st.progress.completed) := by
  constructor
  · intro parsed st
    exact ⟨(addXP_base st.progress 5).1, (addXP_base st.progress 5).2.2⟩
  · intro parsed st
    exact ⟨rfl, rfl⟩

/-- C9: the hint-button index `min(floor(attempts / 2), hints.length - 1)`
lies in `[0, hints.length - 1]` whenever the hint list is non-empty, and
whenever the computed index has no corresponding hint (in particular for the
empty hint list, where the index is -1) the handler reports the
no-more-hints message instead of failing. -/
theorem hint_index_clamped :
    ∀ (attempts : Nat) (hints : List String),
      (hints ≠ [] →
        0 ≤ min (Int.fdiv (attempts : Int) 2) ((hints.length : Int) - 1) ∧
        min (Int.fdiv (attempts : Int) 2) ((hints.length : Int) - 1) ≤ (hints.length : Int) - 1) ∧
      (jsIndex hints (min (Int.fdiv (attempts : Int) 2) ((hints.length : Int) - 1)) = none →
        hintBtnClick hints attempts = (HintOutcome.noMore, attempts)) := by
  intro attempts hints
  constructor
  · intro hne
    constructor
    · apply le_min
      · rw [Int.fdiv_eq_ediv _ (by norm_num)]
        omega
      · have hpos : 0 < hints.length := List.length_pos.mpr hne
        omega
    · exact min_le_right _ _
  · intro hnone
    unfold hintBtnClick
    simp only [hnone]

/-- C9 witness: for one hint and no failed attempts the index is 0 and lies
in the range; for the empty hint list after five attempts the handler
reports the no-more-hints message. -/
theorem hint_index_clamped_witness :
    (0 ≤ min (Int.fdiv ((0 : Nat) : Int) 2) (((["a"] : List String).length : Int) - 1) ∧
      min (Int.fdiv ((0 : Nat) : Int) 2) (((["a"] : List String).length : Int) - 1) ≤
        (((["a"] : List String).length : Int) - 1)) ∧
    hintBtnClick [] 5 = (HintOutcome.noMore, 5) :=
  ⟨(hint_index_clamped 0 ["a"]).1 (by decide), (hint_index_clamped 5 []).2 (by decide)⟩

/-- C4 counterexample: in the prototype harness (src/main.js lines 210-216,
also cited by the claim) a missing `check` entry point yields
`passed=false` with `error=None` and no diagnostic text at all, contradicting
the claimed specific no-entry-point diagnostic string. -/
theorem prototype_noCheck_no_diagnostic_counterexample :
    (V1.grade ⟨"", none⟩ ⟨"", none, false, fun _ => none, fun _ => false⟩).passed = false ∧
    (V1.grade ⟨"", none⟩ ⟨"", none, false, fun _ => none, fun _ => false⟩).error = none := by
  constructor <;> rfl

/-- C4 (amended): when the user source runs without exception and the checker
defines no `check` entry point, the documented harness reports `passed=false`
with the specific diagnostic string, while the prototype harness reports
`passed=false` with no error message; in both models the grading function is
total, so the request never ends unhandled. -/
theorem grade_noCheck_diagnostic :
    (∀ (u : UserRun) (c : CheckerRun), u.error = none → c.error = none → c.hasCheck = false →
      V2.grade u c = { passed := false, error := some V2.noCheckMsg, output := u.output }) ∧
    (∀ (u : UserRun) (c : CheckerRun), u.error = none → c.error = none → c.hasCheck = false →
      V1.grade u c = { passed := false, error := none, output := u.output }) := by
  constructor
  · intro u c hu hc hhc
    unfold V2.grade
    rw [hu, hc, hhc]
    simp
  · intro u c hu hc hhc
    unfold V1.grade
    rw [hu, hc, hhc]
    simp

/-- C4 witness: a concrete no-entry-point checker run through both grading
models. -/
theorem grade_noCheck_diagnostic_witness :
    V2.grade ⟨"out", none⟩ ⟨"", none, false, fun _ => none, fun _ => false⟩ =
      { passed := false, error := some V2.noCheckMsg, output := "out" } ∧
    V1.grade ⟨"out", none⟩ ⟨"", none, false, fun _ => none, fun _ => false⟩ =
      { passed := false, error := none, output := "out" } :=
  ⟨grade_noCheck_diagnostic.1 ⟨"out", none⟩ ⟨"", none, false, fun _ => none, fun _ => false⟩
      rfl rfl rfl,
    grade_noCheck_diagnostic.2 ⟨"out", none⟩ ⟨"", none, false, fun _ => none, fun _ => false⟩
      rfl rfl rfl⟩

/-- C5: a grading request whose user source raises an exception yields
`passed=false`, the exception message as the error, and the stdout captured
before the exception as the output, in both revisions; the checker is never
consulted (the result does not depend on it); and on any failed grade the
fail counter of the lesson advances by exactly one in both revisions. -/
theorem grade_userError_contract :
    (∀ (u : UserRun) (c : CheckerRun) (e : String), u.error = some e →
      V2.grade u c = { passed := false, error := some e, output := u.output }) ∧
    (∀ (u : UserRun) (c c2 : CheckerRun) (e : String), u.error = some e →
      V2.grade u c = V2.grade u c2) ∧
    (∀ (u : UserRun) (c : CheckerRun) (e : String), u.error = some e →
      V1.grade u c = { passed := false, error := some e, output := u.output }) ∧
    (∀ (lesson : Lesson) (r : GradeResult) (st : V2.SessionState), r.passed = false →
      (V2.handleTest lesson r st).failCounts lesson.id = st.failCounts lesson.id + 1) ∧
    (∀ (lesson : Lesson) (r : GradeResult) (st : V1.SessionState), r.passed = false →
      (V1.handleTest lesson r st).failCounts lesson.id = st.failCounts lesson.id + 1) := by
  have k2 : ∀ (u : UserRun) (c : CheckerRun) (e : String), u.error = some e →
      V2.grade u c = { passed := false, error := some e, output := u.output } := by
    intro u c e hu
    unfold V2.grade
    rw [hu]
  refine ⟨k2, ?_, ?_, ?_, ?_⟩
  · intro u c c2 e hu
    rw [k2 u c e hu, k2 u c2 e hu]
  · intro u c e hu
    unfold V1.grade
    rw [hu]
  · intro lesson r st hr
    rw [handleTest_fail_eq lesson r st hr]
    simp [bumpCount]
  · intro lesson r st hr
    unfold V1.handleTest
    rw [if_neg (by simp [hr])]
    simp [bumpCount]

/-- C5 witness: a concrete raising user run through both grading models and a
concrete failed grade through both test handlers. -/
theorem grade_userError_contract_witness :
    V2.grade ⟨"partial", some "boom"⟩ ⟨"", none, true, fun _ => none, fun _ => true⟩ =
      { passed := false, error := some "boom", output := "partial" } ∧
    V2.grade ⟨"partial", some "boom"⟩ ⟨"", none, true, fun _ => none, fun _ => true⟩ =
      V2.grade ⟨"partial", some "boom"⟩ ⟨"x", some "other", false, fun _ => none, fun _ => false⟩ ∧
    V1.grade ⟨"partial", some "boom"⟩ ⟨"", none, true, fun _ => none, fun _ => true⟩ =
      { passed := false, error := some "boom", output := "partial" } ∧
    (V2.handleTest ⟨"l1", some 20, []⟩ ⟨false, some "boom", ""⟩
      ⟨V2.initState, fun _ => 0⟩).failCounts "l1" = 1 ∧
    (V1.handleTest ⟨"l1", some 20, []⟩ ⟨false, some "boom", ""⟩
      ⟨V1.initState, fun _ => 0⟩).failCounts "l1" = 1 :=
  ⟨grade_userError_contract.1 ⟨"partial", some "boom"⟩
      ⟨"", none, true, fun _ => none, fun _ => true⟩ "boom" rfl,
    grade_userError_contract.2.1 ⟨"partial", some "boom"⟩
      ⟨"", none, true, fun _ => none, fun _ => true⟩
      ⟨"x", some "other", false, fun _ => none, fun _ => false⟩ "boom" rfl,
    grade_userError_contract.2.2.1 ⟨"partial", some "boom"⟩
      ⟨"", none, true, fun _ => none, fun _ => true⟩ "boom" rfl,
    grade_userError_contract.2.2.2.1 ⟨"l1", some 20, []⟩ ⟨false, some "boom", ""⟩
      ⟨V2.initState, fun _ => 0⟩ rfl,
    grade_userError_contract.2.2.2.2 ⟨"l1", some 20, []⟩ ⟨false, some "boom", ""⟩
      ⟨V1.initState, fun _ => 0⟩ rfl⟩

/-- C7 counterexample: loading is claimed to yield `xp ≥ 0` for every stored
blob, but a well-formed blob storing a negative xp (here -5) passes the falsy
guard `if (!state.xp) state.xp = 0` untouched and loads as-is, so the loaded
state has negative xp (and the same path preserves negative levels and
duplicate entries of `unlocked_achievements`). -/
theorem loadState_negative_xp_counterexample :
    (V2.loadState (some ⟨some (-5), none, none, none⟩)).xp < 0 := by decide

/-- C7 (amended): loading never fails and is silent about corruption: an
unparseable blob and an absent blob both yield the default state (xp 0,
level 1, empty sets) in both revisions, and any state with `level ≥ 1` saved
by `saveState` reloads to exactly itself (so reloaded states satisfy
`xp ≥ 0`, `level ≥ 1` and duplicate-freedom whenever the saved state did);
but a well-formed blob that itself stores a negative xp or level or
duplicate achievement ids is taken over unchanged. -/
theorem loadState_fallback_roundtrip :
    V2.loadState none = V2.initState ∧
    V2.loadState (some ⟨none, none, none, none⟩) = V2.initState ∧
    V1.loadState none = V1.initState ∧
    V1.loadState (some ⟨none, none, none, none⟩) = V1.initState ∧
    (∀ s : V2.ProgressState, 1 ≤ s.level → V2.loadState (some (V2.saveState s)) = s) := by
  refine ⟨rfl, by decide, rfl, by decide, ?_⟩
  intro s hl
  obtain ⟨sx, sl, sc, su⟩ := s
  change (1 : Int) ≤ sl at hl
  have hx : (if sx = 0 then (0 : Int) else sx) = sx := by
    split_ifs with h
    · exact h.symm
    · rfl
  have hlv : (if sl = 0 then (1 : Int) else sl) = sl := by
    split_ifs with h
    · omega
    · rfl
  simp [V2.saveState, V2.loadState, hx, hlv]

/-- C7 witness: the round-trip applied to a concrete valid state. -/
theorem loadState_fallback_roundtrip_witness :
    V2.loadState (some (V2.saveState ⟨105, 2, ["l1"], ["level_up", "explorer"]⟩)) =
      (⟨105, 2, ["l1"], ["level_up", "explorer"]⟩ : V2.ProgressState) :=
  loadState_fallback_roundtrip.2.2.2.2 ⟨105, 2, ["l1"], ["level_up", "explorer"]⟩ (by decide)

theorem hexVal_hexDigit : ∀ m : Nat, m < 16 → hexVal (hexDigit m) = m := by decide

theorem pyParseDQ_chunk (c : Char) (tail : List Char) :
    pyParseDQ (jsonEscapeChar c ++ tail) = (pyParseDQ tail).map fun p => (c :: p.1, p.2) := by
  unfold jsonEscapeChar
  split_ifs with h1 h2 h3 h4 h5 h6 h7 h8
  · subst h1
    simp only [List.cons_append, List.nil_append]
    rw [pyParseDQ.eq_def]
    simp [pyEscChar]
  · subst h2
    simp only [List.cons_append, List.nil_append]
    rw [pyParseDQ.eq_def]
    simp [pyEscChar]
  · subst h3
    simp only [List.cons_append, List.nil_append]
    rw [pyParseDQ.eq_def]
    simp [pyEscChar]
  · subst h4
    simp only [List.cons_append, List.nil_append]
    rw [pyParseDQ.eq_def]
    simp [pyEscChar]
  · subst h5
    simp only [List.cons_append, List.nil_append]
    rw [pyParseDQ.eq_def]
    simp [pyEscChar]
  · have hc : c = Char.ofNat 8 := by
      rw [← h6, Char.ofNat_toNat]
    subst hc
    simp only [List.cons_append, List.nil_append]
    rw [pyParseDQ.eq_def]
    simp [pyEscChar]
  · have hc : c = Char.ofNat 12 := by
      rw [← h7, Char.ofNat_toNat]
    subst hc
    simp only [List.cons_append, List.nil_append]
    rw [pyParseDQ.eq_def]
    simp [pyEscChar]
  · have harg : hexVal '0' * 4096 + hexVal '0' * 256 +
        hexVal (hexDigit (c.toNat / 16)) * 16 + hexVal (hexDigit (c.toNat % 16)) = c.toNat := by
      rw [hexVal_hexDigit (c.toNat / 16) (by omega), hexVal_hexDigit (c.toNat % 16) (by omega)]
      have h0 : hexVal '0' = 0 := by decide
      rw [h0]
      omega
    simp only [List.cons_append, List.nil_append]
    rw [pyParseDQ.eq_def]
    simp [harg, Char.ofNat_toNat]
  · simp only [List.cons_append, List.nil_append]
    rw [pyParseDQ.eq_def]
    simp [h1, h2, h3]

theorem pyParseDQ_json (src : List Char) : ∀ rest : List Char,
    pyParseDQ (src.flatMap jsonEscapeChar ++ '"' :: rest) = some (src, rest) := by
  induction src with
  | nil =>
    intro rest
    rw [List.flatMap_nil, List.nil_append, pyParseDQ.eq_def]
    simp
  | cons c src ih =>
    intro rest
    rw [List.flatMap_cons, List.append_assoc, pyParseDQ_chunk c, ih rest]
    rfl

theorem json_chunk_head (c : Char) : ∃ h t, jsonEscapeChar c = h :: t ∧ h ≠ '"' := by
  unfold jsonEscapeChar
  split_ifs with h1 h2 h3 h4 h5 h6 h7 h8
  · exact ⟨'\\', _, rfl, by decide⟩
  · exact ⟨'\\', _, rfl, by decide⟩
  · exact ⟨'\\', _, rfl, by decide⟩
  · exact ⟨'\\', _, rfl, by decide⟩
  · exact ⟨'\\', _, rfl, by decide⟩
  · exact ⟨'\\', _, rfl, by decide⟩
  · exact ⟨'\\', _, rfl, by decide⟩
  · exact ⟨'\\', _, rfl, by decide⟩
  · exact ⟨c, [], rfl, h1⟩

theorem V1_userValue_roundtrip (src : List Char) : V1.userValue src = some src := by
  cases src with
  | nil => decide
  | cons c src =>
    show pyEvalStringLit ('"' :: (c :: src).flatMap jsonEscapeChar ++ ['"']) = some (c :: src)
    obtain ⟨h, t, hchunk, hne⟩ := json_chunk_head c
    have hlit : '"' :: (c :: src).flatMap jsonEscapeChar ++ ['"'] =
        '"' :: h :: (t ++ (src.flatMap jsonEscapeChar ++ ['"'])) := by
      rw [List.flatMap_cons, hchunk]
      simp [List.append_assoc]
    have hback : h :: (t ++ (src.flatMap jsonEscapeChar ++ ['"'])) =
        (c :: src).flatMap jsonEscapeChar ++ '"' :: [] := by
      rw [List.flatMap_cons, hchunk]
      simp [List.append_assoc]
    rw [hlit]
    unfold pyEvalStringLit
    rw [if_neg (by simp [hne]), if_pos (by simp)]
    have hdrop : ('"' :: h :: (t ++ (src.flatMap jsonEscapeChar ++ ['"']))).drop 1 =
        (c :: src).flatMap jsonEscapeChar ++ '"' :: [] := by
      rw [List.drop_one, List.tail_cons, hback]
    rw [hdrop, pyParseDQ_json (c :: src) []]

/-- C3: the documented grading harness splices the user source between two
triple-quote sequences, so a legitimate program that itself contains the
sequence (here `print(\"\"\"hi\"\"\")`) is not embedded intact: the spliced text is
no longer a single string literal and the engine-side `_user` cannot equal
the user source (the script is broken), contradicting the harness comment
that the triple-quoted embedding is safe.  The prototype harness, which
serializes with `JSON.stringify`, embeds every source intact, including this
one. -/
theorem userValue_triple_quote_bug :
    V2.userValue tripleQuoteSrc = none ∧
    V2.userValue tripleQuoteSrc ≠ some tripleQuoteSrc ∧
    (∀ src : List Char, V1.userValue src = some src) := by
  refine ⟨by decide, ?_, V1_userValue_roundtrip⟩
  intro h
  rw [show V2.userValue tripleQuoteSrc = none from by decide] at h
  exact Option.noConfusion h
